import Mathlib

/-!
Shallow embedding of the transform-and-aggregate engine of the repository:
the single-node backend `scripts/data_transformer.py` (pandas) and the
distributed backend `scripts/pyspark_transformer.py` (Spark SQL).

Modelling conventions:
* pandas/Spark scalar cells become the inductive `Scalar`; floating-point
  values are modelled as exact rationals; a missing value (`NaN` / SQL `NULL`)
  is `Scalar.null`.
* A `Row` is the association list of (column name, cell) pairs of one record,
  in column order; a `DataFrame` is the column list plus the row list.
  Reading a column that a row does not carry yields `Scalar.null` (the cell a
  pandas reindexing fills with `NaN`).
* Timestamps are abstracted to seconds since 1970-01-01 00:00:00; a string
  timestamp cell carries a decimal count of seconds; dates are days since
  1970-01-01.  Calendar fields are computed by the standard civil-from-days
  algorithm, so `year`/`month`/`day`/`day_of_week` agree with the library
  accessors both backends call.
* Python exceptions become `Option`/`Except` `none`/`error` results.
-/

namespace ETL

/-- Scalar cell values of a dataframe.  `float` cells are exact rationals. -/
inductive Scalar where
  | null
  | bool (b : Bool)
  | int (n : Int)
  | float (x : Rat)
  | str (s : String)
  | date (d : Int)
  | datetime (t : Int)
deriving DecidableEq, Repr

/-- Rank of the constructor, used to order cells of different kinds. -/
def Scalar.rank : Scalar → Nat
  | .null => 0
  | .bool _ => 1
  | .int _ => 2
  | .float _ => 3
  | .str _ => 4
  | .date _ => 5
  | .datetime _ => 6

/-- Numeric component of the ordering key of a cell. -/
def Scalar.ratKey : Scalar → Rat
  | .null => 0
  | .bool b => if b then 1 else 0
  | .int n => n
  | .float x => x
  | .str _ => 0
  | .date d => d
  | .datetime t => t

/-- String component of the ordering key of a cell. -/
def Scalar.strKey : Scalar → String
  | .str s => s
  | _ => ""

/-- Strict order on cells: lexicographic on (constructor rank, numeric key,
string key).  On cells of one kind it is the usual order of that kind, which
is the order pandas group keys and Spark `ORDER BY` use; `null` sorts first,
matching Spark's `NULLS FIRST` default for ascending sorts. -/
def Scalar.slt (a b : Scalar) : Prop :=
  a.rank < b.rank ∨
    (a.rank = b.rank ∧
      (a.ratKey < b.ratKey ∨ (a.ratKey = b.ratKey ∧ a.strKey < b.strKey)))

/-- Ordering-key equality of cells. -/
def Scalar.seq (a b : Scalar) : Prop :=
  a.rank = b.rank ∧ a.ratKey = b.ratKey ∧ a.strKey = b.strKey

/-- Non-strict cell order. -/
def Scalar.le (a b : Scalar) : Prop := Scalar.slt a b ∨ Scalar.seq a b

instance : DecidableRel Scalar.slt := fun a b => by
  unfold Scalar.slt; infer_instance

instance : DecidableRel Scalar.seq := fun a b => by
  unfold Scalar.seq; infer_instance

instance : DecidableRel Scalar.le := fun a b => by
  unfold Scalar.le; infer_instance

/-- Lexicographic order on grouping keys (lists of cells). -/
def keyLe : List Scalar → List Scalar → Prop
  | [], _ => True
  | _ :: _, [] => False
  | a :: k, b :: l => Scalar.slt a b ∨ (Scalar.seq a b ∧ keyLe k l)

instance : DecidableRel keyLe := fun k l => by
  induction k generalizing l with
  | nil => exact isTrue trivial
  | cons a k ih =>
    cases l with
    | nil => exact isFalse (fun h => h)
    | cons b l => exact @instDecidableOr _ _ _ (@instDecidableAnd _ _ _ (ih l))

/-- One record: the (column, cell) pairs in column order. -/
abbrev Row := List (String × Scalar)

/-- Reading column `c` of a row: the first cell stored under `c`, `null`
when the row carries no such column. -/
def Row.get : Row → String → Scalar
  | [], _ => .null
  | (c', v) :: r, c => if c' = c then v else Row.get r c

/-- Column assignment `df[c] = v` at row level: replaces the cell in place
when the column exists, appends the new column at the end otherwise —
exactly how pandas `DataFrame.__setitem__` and Spark `withColumn` place a
derived column. -/
def Row.set : Row → String → Scalar → Row
  | [], c, v => [(c, v)]
  | (c', v') :: r, c, v => if c' = c then (c, v) :: r else (c', v') :: Row.set r c v

/-- Does the row carry column `c`? -/
def Row.hasCol (r : Row) (c : String) : Prop := c ∈ r.map Prod.fst

instance (r : Row) (c : String) : Decidable (r.hasCol c) := by
  unfold Row.hasCol; infer_instance

/-- A tabular dataset: its column list and its rows. -/
structure DataFrame where
  cols : List String
  rows : List Row
deriving DecidableEq, Repr

/-- Appending the columns of `newCols` that `cols` does not already contain,
keeping first-occurrence order (how pandas extends a column index). -/
def addCols (cols newCols : List String) : List String :=
  cols ++ newCols.filter (fun c => decide (c ∉ cols))

/-- Civil calendar date of a count of days since 1970-01-01
(Howard Hinnant's `civil_from_days`), modelling the year/month/day
accessors used by `data_transformer.clean_data` (pandas `Series.dt`) and
`pyspark_transformer.clean_data` (Spark `year`/`month`/`dayofmonth`). -/
def civilFromDays (z0 : Int) : Int × Int × Int :=
  let z := z0 + 719468
  let era := Int.ediv z 146097
  let doe := z - era * 146097
  let yoe := Int.ediv (doe - Int.ediv doe 1460 + Int.ediv doe 36524 - Int.ediv doe 146096) 365
  let y := yoe + era * 400
  let doy := doe - (365 * yoe + Int.ediv yoe 4 - Int.ediv yoe 100)
  let mp := Int.ediv (5 * doy + 2) 153
  let d := doy - Int.ediv (153 * mp + 2) 5 + 1
  let m := mp + (if mp < 10 then 3 else -9)
  (y + (if m ≤ 2 then 1 else 0), m, d)

def yearOfDays (z : Int) : Int := (civilFromDays z).1

def monthOfDays (z : Int) : Int := (civilFromDays z).2.1

def dayOfDays (z : Int) : Int := (civilFromDays z).2.2

/-- Day count of a timestamp in seconds (floor division). -/
def dateOfTs (t : Int) : Int := Int.ediv t 86400

/-- pandas `Series.dt.dayofweek` (line 80 of `data_transformer.py`):
Monday = 0 … Sunday = 6.  1970-01-01 (day 0) was a Thursday, hence `+ 3`. -/
def pandasDayOfWeek (z : Int) : Int := (z + 3) % 7

/-- Spark SQL `dayofweek` (line 85 of `pyspark_transformer.py`):
Sunday = 1 … Saturday = 7. -/
def sparkDayOfWeek (z : Int) : Int := (z + 4) % 7 + 1

/-- Value of a decimal digit character. -/
def digitVal? (c : Char) : Option Nat :=
  if c.isDigit then some (c.toNat - 48) else none

/-- Value of a nonempty run of decimal digits. -/
def digitsVal? (cs : List Char) : Option Nat :=
  match cs with
  | [] => none
  | _ :: _ => cs.foldl
      (fun acc c => acc.bind (fun n => (digitVal? c).map (fun d => n * 10 + d)))
      (some 0)

/-- Reading an optionally negated decimal integer string; `none` when the
string is not of that shape. -/
def strToInt? (s : String) : Option Int :=
  match s.data with
  | '-' :: cs => (digitsVal? cs).map (fun n => -(n : Int))
  | cs => (digitsVal? cs).map (fun n => (n : Int))

/-- Timestamp parsing (`pd.to_datetime` / Spark's timestamp reader),
abstracted: an already-parsed timestamp passes through, a date is taken at
midnight, an integer is a count of seconds, a string carries a decimal count
of seconds.  `none` models a failed parse (`pd.to_datetime` raises there;
Spark turns it into `null`, handled at the call sites below). -/
def parseTimestamp : Scalar → Option Int
  | .datetime t => some t
  | .date d => some (d * 86400)
  | .int n => some n
  | .str s => strToInt? s
  | _ => none

/-- Numeric view of a cell, keeping integer-ness. -/
inductive NumVal where
  | i (n : Int)
  | f (x : Rat)
deriving DecidableEq, Repr

/-- Numeric reading of a cell (Python treats `bool` as `int`). -/
def Scalar.numVal : Scalar → Option NumVal
  | .bool b => some (.i (if b then 1 else 0))
  | .int n => some (.i n)
  | .float x => some (.f x)
  | _ => none

def NumVal.toScalar : NumVal → Scalar
  | .i n => .int n
  | .f x => .float x

/-- Numeric multiplication with Python's promotion rule. -/
def mulNum : NumVal → NumVal → NumVal
  | .i m, .i n => .i (m * n)
  | .i m, .f y => .f (m * y)
  | .f x, .i n => .f (x * n)
  | .f x, .f y => .f (x * y)

/-- Python `str * int` repetition. -/
def strRepeat (s : String) (n : Int) : String :=
  String.join (List.replicate n.toNat s)

/-- Elementwise `*` of pandas columns (line 83 of `data_transformer.py`),
with Python semantics: numbers multiply with promotion, a missing operand
propagates (`NaN * x = NaN`), `str * int` repeats the string, and any other
combination raises a `TypeError` (`none`).  Note: the single-node backend
applies no numeric coercion to `price` or `quantity` before this product. -/
def pandasMul (a b : Scalar) : Option Scalar :=
  match a, b with
  | .null, b' => if b'.numVal.isSome || b' = .null then some .null else none
  | a', .null => if a'.numVal.isSome then some .null else none
  | .str s, .int n => some (.str (strRepeat s n))
  | .int n, .str s => some (.str (strRepeat s n))
  | a', b' =>
    match a'.numVal, b'.numVal with
    | some u, some v => some (mulNum u v).toScalar
    | _, _ => none

/-- Spark SQL `*`: numeric with promotion, `null` on anything else
(a `null` operand gives `null`). -/
def sparkMul (a b : Scalar) : Scalar :=
  match a.numVal, b.numVal with
  | some u, some v => (mulNum u v).toScalar
  | _, _ => .null

/-- Truncation toward zero (how a float is cast to int). -/
def truncRat (x : Rat) : Int := if 0 ≤ x then x.floor else x.ceil

/-- pandas `astype(int)` (line 90 of `data_transformer.py`): booleans become
0/1, floats truncate, integral strings parse; `NaN` or anything else raises
(`none`). -/
def castIntPandas : Scalar → Option Int
  | .bool b => some (if b then 1 else 0)
  | .int n => some n
  | .float x => some (truncRat x)
  | .str s => strToInt? s
  | _ => none

/-- Spark `cast(IntegerType())`: like the pandas cast but a failed cast is
`null`, never an error. -/
def castIntSpark : Scalar → Scalar
  | .bool b => .int (if b then 1 else 0)
  | .int n => .int n
  | .float x => .int (truncRat x)
  | .str s => match strToInt? s with
    | some n => .int n
    | none => .null
  | _ => .null

/-- Spark `cast(DoubleType())`: a failed cast is `null`, never an error
(string parsing abstracted to decimal integer strings). -/
def castDoubleSpark : Scalar → Scalar
  | .bool b => .float (if b then 1 else 0)
  | .int n => .float n
  | .float x => .float x
  | .str s => match strToInt? s with
    | some n => .float n
    | none => .null
  | _ => .null

/-- `fillna(0)` / `na.fill` on the rating column: a missing rating becomes 0. -/
def fillZero (v : Scalar) : Scalar := if v = .null then .float 0 else v

/-- Derived columns `clean_data` appends (both backends, same six names). -/
def derivedCols : List String :=
  ["date", "year", "month", "day", "day_of_week", "total_price"]

/-- Per-row body of `data_transformer.clean_data` (lines 70-90): parse the
timestamp, derive the calendar columns, multiply out `total_price`, fill the
missing ratings with 0 and, when the frame has an `is_gift` column, cast it
to int.  `none` models a raised exception; note there is no dedicated
type-coercion error anywhere in the source. -/
def cleanRow (hasGift : Bool) (r : Row) : Option Row :=
  match parseTimestamp (r.get "timestamp") with
  | none => none
  | some t =>
    let z := dateOfTs t
    let r1 := (((((r.set "timestamp" (.datetime t)).set "date" (.date z)).set "year"
        (.int (yearOfDays z))).set "month" (.int (monthOfDays z))).set "day"
        (.int (dayOfDays z))).set "day_of_week" (.int (pandasDayOfWeek z))
    match pandasMul (r1.get "price") (r1.get "quantity") with
    | none => none
    | some tp =>
      let r2 := (r1.set "total_price" tp).set "rating" (fillZero (r1.get "rating"))
      if hasGift then
        match castIntPandas (r2.get "is_gift") with
        | none => none
        | some g => some (r2.set "is_gift" (.int g))
      else some r2

/-- Option-valued map over a list (`none` as soon as one element fails). -/
def mapO (f : α → Option β) : List α → Option (List β)
  | [] => some []
  | a :: l =>
    match f a, mapO f l with
    | some b, some bs => some (b :: bs)
    | _, _ => none

/-- `data_transformer.clean_data` (lines 59-94), the single-node normalizer. -/
def clean_data (df : DataFrame) : Option DataFrame :=
  match mapO (cleanRow (decide ("is_gift" ∈ df.cols))) df.rows with
  | none => none
  | some rows => some { cols := addCols df.cols derivedCols, rows := rows }

/-- Per-row body of `pyspark_transformer.clean_data` (lines 76-95): cast
`price`/`quantity`/`rating` (a failed cast silently becomes `null`), derive
the calendar columns from the (unchanged) timestamp string — an unparseable
timestamp gives `null` calendar cells — multiply out `total_price`, fill the
missing ratings, and cast `is_gift` when present.  Total: no failure path. -/
def sparkCleanRow (hasGift : Bool) (r : Row) : Row :=
  let ra := ((r.set "price" (castDoubleSpark (r.get "price"))).set "quantity"
      (castIntSpark (r.get "quantity"))).set "rating" (castDoubleSpark (r.get "rating"))
  let rb := match parseTimestamp (ra.get "timestamp") with
    | some t =>
      let z := dateOfTs t
      ((((ra.set "date" (.date z)).set "year" (.int (yearOfDays z))).set "month"
          (.int (monthOfDays z))).set "day" (.int (dayOfDays z))).set "day_of_week"
          (.int (sparkDayOfWeek z))
    | none =>
      ((((ra.set "date" .null).set "year" .null).set "month" .null).set "day"
          .null).set "day_of_week" .null
  let rc := rb.set "total_price" (sparkMul (rb.get "price") (rb.get "quantity"))
  let rd := rc.set "rating" (fillZero (rc.get "rating"))
  if hasGift then rd.set "is_gift" (castIntSpark (rd.get "is_gift")) else rd

/-- `pyspark_transformer.clean_data` (lines 64-99), the distributed
normalizer.  A pure, total function: the Spark casts it is built from turn
malformed scalars into `null` instead of failing. -/
def spark_clean (df : DataFrame) : DataFrame :=
  { cols := addCols df.cols derivedCols,
    rows := df.rows.map (sparkCleanRow (decide ("is_gift" ∈ df.cols))) }

/-- The only loading error the source raises:
`ValueError("No CSV files found in ...")` (line 42 of `data_transformer.py`). -/
inductive LoadError where
  | noCSVFiles
deriving DecidableEq, Repr

/-- `pd.concat(dataframes, ignore_index=True)` (line 54): the column sets are
united in first-occurrence order — they are NOT required to agree — and the
rows are concatenated; a cell a source frame lacks reads as `null`. -/
def concatFrames (files : List DataFrame) : DataFrame :=
  { cols := files.foldl (fun acc f => addCols acc f.cols) [],
    rows := (files.map DataFrame.rows).flatten }

/-- `data_transformer.load_csv_files` (lines 25-57): raises when the
directory holds no CSV file, otherwise concatenates all files.  The files
are given already parsed (CSV reading is the format adapter). -/
def load_csv_files (files : List DataFrame) : Except LoadError DataFrame :=
  if files = [] then .error .noCSVFiles else .ok (concatFrames files)

/-- `pyspark_transformer.load_csv_files` (lines 45-62): delegates to
`spark.read...csv(input_dir)` and imposes no check of its own — in
particular no zero-file check and no schema comparison; modelled as plain
concatenation of whatever files the location resolves to. -/
def spark_load_csv_files (files : List DataFrame) : DataFrame :=
  concatFrames files

/-- The grouping key of a row for key columns `ks`. -/
def keyOf (ks : List String) (r : Row) : List Scalar := ks.map r.get

/-- pandas drops a row from a groupby when any of its key cells is `NaN`
(`dropna=True`, the default). -/
def validKey (ks : List String) (r : Row) : Bool :=
  (keyOf ks r).all (fun v => decide (v ≠ .null))

/-- pandas `df.groupby(ks)` with the default settings: rows with a null key
are dropped, the group keys are the distinct remaining keys sorted ascending
(`sort=True`, the default), and each group holds the rows with that key. -/
def pandasGroupby (ks : List String) (rows : List Row) : List (List Scalar × List Row) :=
  let valid := rows.filter (validKey ks)
  let keys := List.insertionSort keyLe ((valid.map (keyOf ks)).dedup)
  keys.map (fun k => (k, valid.filter (fun r => decide (keyOf ks r = k))))

/-- Spark SQL `GROUP BY`: null keys form their own group, nothing is
dropped, and the group enumeration order is engine-dependent — modelled as
first-occurrence order. -/
def sparkGroupby (ks : List String) (rows : List Row) : List (List Scalar × List Row) :=
  ((rows.map (keyOf ks)).dedup).map
    (fun k => (k, rows.filter (fun r => decide (keyOf ks r = k))))

/-- The cells of column `c` over a group. -/
def colCells (g : List Row) (c : String) : List Scalar := g.map (fun r => r.get c)

/-- Exact value of a numeric cell, for reducers (nulls handled by callers). -/
def cellRat : Scalar → Option Rat
  | .bool b => some (if b then 1 else 0)
  | .int n => some n
  | .float x => some x
  | _ => none

/-- pandas `sum` reducer: nulls are skipped, an empty or all-null column
sums to 0 (column sums are modelled over exact rationals). -/
def sumCells (cells : List Scalar) : Scalar :=
  .float (cells.filterMap cellRat).sum

/-- SQL `SUM`: nulls are skipped, but an empty or all-null column is `NULL`. -/
def sparkSumCells (cells : List Scalar) : Scalar :=
  match cells.filterMap cellRat with
  | [] => .null
  | v :: vs => .float (v :: vs).sum

/-- pandas `count` / SQL `COUNT(col)`: the number of non-null cells. -/
def countCells (cells : List Scalar) : Nat :=
  (cells.filter (fun v => decide (v ≠ .null))).length

/-- pandas `mean` / SQL `AVG`: sum of the non-null cells over their number;
null (never produced on a group, which always has a row) when none. -/
def meanCells (cells : List Scalar) : Scalar :=
  match cells.filterMap cellRat with
  | [] => .null
  | v :: vs => .float ((v :: vs).sum / (v :: vs).length)

/-- Result row of the sales-by-category view for one group. -/
def salesByCategoryRow (kg : List Scalar × List Row) : Row :=
  [("category", kg.1.headD .null),
   ("total_price", sumCells (colCells kg.2 "total_price")),
   ("quantity", sumCells (colCells kg.2 "quantity")),
   ("num_transactions", .int (countCells (colCells kg.2 "transaction_id")))]

/-- `sales_by_category` of `data_transformer.aggregate_data` (lines 110-116). -/
def sales_by_category (df : DataFrame) : DataFrame :=
  { cols := ["category", "total_price", "quantity", "num_transactions"],
    rows := (pandasGroupby ["category"] df.rows).map salesByCategoryRow }

/-- Result row of the sales-by-date view for one group. -/
def salesByDateRow (kg : List Scalar × List Row) : Row :=
  [("date", kg.1.headD .null),
   ("total_price", sumCells (colCells kg.2 "total_price")),
   ("quantity", sumCells (colCells kg.2 "quantity")),
   ("num_transactions", .int (countCells (colCells kg.2 "transaction_id")))]

/-- `sales_by_date` of `data_transformer.aggregate_data` (lines 120-126).
No explicit sort appears in the source: the ascending date order of the
output is the sorted-group-keys behavior of `groupby(sort=True)`. -/
def sales_by_date (df : DataFrame) : DataFrame :=
  { cols := ["date", "total_price", "quantity", "num_transactions"],
    rows := (pandasGroupby ["date"] df.rows).map salesByDateRow }

/-- Result row of the product-performance view for one group. -/
def productPerformanceRow (kg : List Scalar × List Row) : Row :=
  [("category", kg.1.headD .null),
   ("product_name", (kg.1.drop 1).headD .null),
   ("total_price", sumCells (colCells kg.2 "total_price")),
   ("quantity", sumCells (colCells kg.2 "quantity")),
   ("num_transactions", .int (countCells (colCells kg.2 "transaction_id"))),
   ("avg_rating", meanCells (colCells kg.2 "rating"))]

/-- `product_performance` of `data_transformer.aggregate_data`
(lines 130-140). -/
def product_performance (df : DataFrame) : DataFrame :=
  { cols := ["category", "product_name", "total_price", "quantity",
             "num_transactions", "avg_rating"],
    rows := (pandasGroupby ["category", "product_name"] df.rows).map
      productPerformanceRow }

/-- Result row of the payment-analysis view for one group. -/
def paymentAnalysisRow (kg : List Scalar × List Row) : Row :=
  [("payment_method", kg.1.headD .null),
   ("total_price", sumCells (colCells kg.2 "total_price")),
   ("num_transactions", .int (countCells (colCells kg.2 "transaction_id")))]

/-- `payment_analysis` of `data_transformer.aggregate_data` (lines 145-150). -/
def payment_analysis (df : DataFrame) : DataFrame :=
  { cols := ["payment_method", "total_price", "num_transactions"],
    rows := (pandasGroupby ["payment_method"] df.rows).map paymentAnalysisRow }

/-- Result row of the gift-analysis view for one group. -/
def giftAnalysisRow (kg : List Scalar × List Row) : Row :=
  [("category", kg.1.headD .null),
   ("is_gift", (kg.1.drop 1).headD .null),
   ("total_price", sumCells (colCells kg.2 "total_price")),
   ("num_transactions", .int (countCells (colCells kg.2 "transaction_id")))]

/-- `gift_analysis` of `data_transformer.aggregate_data` (lines 155-160). -/
def gift_analysis (df : DataFrame) : DataFrame :=
  { cols := ["category", "is_gift", "total_price", "num_transactions"],
    rows := (pandasGroupby ["category", "is_gift"] df.rows).map giftAnalysisRow }

/-- `data_transformer.aggregate_data` (lines 96-164): the three fixed views,
then `payment_analysis` iff the frame has a `payment_method` column, then
`gift_analysis` iff it has an `is_gift` column, in insertion order. -/
def aggregate_data (df : DataFrame) : List (String × DataFrame) :=
  [("sales_by_category", sales_by_category df),
   ("sales_by_date", sales_by_date df),
   ("product_performance", product_performance df)] ++
  (if "payment_method" ∈ df.cols then [("payment_analysis", payment_analysis df)] else []) ++
  (if "is_gift" ∈ df.cols then [("gift_analysis", gift_analysis df)] else [])

/-- Spark `sales_by_category` (lines 120-128 of `pyspark_transformer.py`):
`GROUP BY category` with SQL reducers, no ordering clause. -/
def spark_sales_by_category (df : DataFrame) : DataFrame :=
  { cols := ["category", "total_price", "quantity", "num_transactions"],
    rows := (sparkGroupby ["category"] df.rows).map (fun kg =>
      [("category", kg.1.headD .null),
       ("total_price", sparkSumCells (colCells kg.2 "total_price")),
       ("quantity", sparkSumCells (colCells kg.2 "quantity")),
       ("num_transactions", .int (countCells (colCells kg.2 "transaction_id")))]) }

/-- Comparison of result rows by their date cell, the key of the explicit
`ORDER BY date` of the Spark `sales_by_date` query. -/
def dateRowLe (r s : Row) : Prop := Scalar.le (r.get "date") (s.get "date")

instance : DecidableRel dateRowLe := fun r s => by
  unfold dateRowLe; infer_instance

/-- Spark `sales_by_date` (lines 132-141): `GROUP BY date` followed by an
explicit `ORDER BY date` (ascending, nulls first) on the result rows. -/
def spark_sales_by_date (df : DataFrame) : DataFrame :=
  { cols := ["date", "total_price", "quantity", "num_transactions"],
    rows := List.insertionSort dateRowLe
      ((sparkGroupby ["date"] df.rows).map (fun kg =>
        [("date", kg.1.headD .null),
         ("total_price", sparkSumCells (colCells kg.2 "total_price")),
         ("quantity", sparkSumCells (colCells kg.2 "quantity")),
         ("num_transactions", .int (countCells (colCells kg.2 "transaction_id")))])) }

/-- Spark `product_performance` (lines 145-155). -/
def spark_product_performance (df : DataFrame) : DataFrame :=
  { cols := ["category", "product_name", "total_price", "quantity",
             "num_transactions", "avg_rating"],
    rows := (sparkGroupby ["category", "product_name"] df.rows).map (fun kg =>
      [("category", kg.1.headD .null),
       ("product_name", (kg.1.drop 1).headD .null),
       ("total_price", sparkSumCells (colCells kg.2 "total_price")),
       ("quantity", sparkSumCells (colCells kg.2 "quantity")),
       ("num_transactions", .int (countCells (colCells kg.2 "transaction_id"))),
       ("avg_rating", meanCells (colCells kg.2 "rating"))]) }

/-- Spark `payment_analysis` (lines 161-168). -/
def spark_payment_analysis (df : DataFrame) : DataFrame :=
  { cols := ["payment_method", "total_price", "num_transactions"],
    rows := (sparkGroupby ["payment_method"] df.rows).map (fun kg =>
      [("payment_method", kg.1.headD .null),
       ("total_price", sparkSumCells (colCells kg.2 "total_price")),
       ("num_transactions", .int (countCells (colCells kg.2 "transaction_id")))]) }

/-- Spark `gift_analysis` (lines 174-182). -/
def spark_gift_analysis (df : DataFrame) : DataFrame :=
  { cols := ["category", "is_gift", "total_price", "num_transactions"],
    rows := (sparkGroupby ["category", "is_gift"] df.rows).map (fun kg =>
      [("category", kg.1.headD .null),
       ("is_gift", (kg.1.drop 1).headD .null),
       ("total_price", sparkSumCells (colCells kg.2 "total_price")),
       ("num_transactions", .int (countCells (colCells kg.2 "transaction_id")))]) }

/-- `pyspark_transformer.aggregate_data` (lines 101-198): the three fixed
views, then `payment_analysis` iff the frame has a `payment_method` column,
then `gift_analysis` iff it has `is_gift` (a constructed dataframe is truthy,
so the `if payment_analysis:` guards reduce to the column checks). -/
def spark_aggregate_data (df : DataFrame) : List (String × DataFrame) :=
  [("sales_by_category", spark_sales_by_category df),
   ("sales_by_date", spark_sales_by_date df),
   ("product_performance", spark_product_performance df)] ++
  (if "payment_method" ∈ df.cols then [("payment_analysis", spark_payment_analysis df)] else []) ++
  (if "is_gift" ∈ df.cols then [("gift_analysis", spark_gift_analysis df)] else [])

/-! Basic lemmas about rows, columns and the cell order. -/

theorem Row.get_set (r : Row) (k k' : String) (v : Scalar) :
    (r.set k v).get k' = if k = k' then v else r.get k' := by
  induction r with
  | nil => by_cases h : k = k' <;> simp [Row.set, Row.get, h]
  | cons p r ih =>
    obtain ⟨c', v'⟩ := p
    by_cases h1 : c' = k
    · subst h1
      by_cases h2 : c' = k' <;> simp [Row.set, Row.get, h2]
    · by_cases h2 : c' = k'
      · subst h2
        have h3 : ¬ k = c' := fun h => h1 h.symm
        simp [Row.set, Row.get, h1, h3]
      · simp [Row.set, Row.get, h1, h2, ih]

theorem Row.hasCol_set (r : Row) (k k' : String) (v : Scalar) :
    (r.set k v).hasCol k' ↔ k = k' ∨ r.hasCol k' := by
  induction r with
  | nil => simp [Row.set, Row.hasCol, eq_comm]
  | cons p r ih =>
    obtain ⟨c', v'⟩ := p
    by_cases h1 : c' = k
    · subst h1
      simp [Row.set, Row.hasCol] at ih ⊢
      tauto
    · simp [Row.set, Row.hasCol, h1] at ih ⊢
      tauto

theorem Row.set_eq_self (r : Row) (k : String) (v : Scalar)
    (hmem : r.hasCol k) (hval : r.get k = v) : r.set k v = r := by
  induction r with
  | nil => simp [Row.hasCol] at hmem
  | cons p r ih =>
    obtain ⟨c', v'⟩ := p
    by_cases h1 : c' = k
    · subst h1
      simp [Row.get] at hval
      simp [Row.set, hval]
    · simp [Row.hasCol, h1] at hmem
      rcases hmem with h | h
      · exact absurd h.symm h1
      · simp [Row.get, h1] at hval
        simp [Row.set, h1, ih (by simpa [Row.hasCol] using h) hval]

theorem mem_addCols (cols new : List String) (c : String) :
    c ∈ addCols cols new ↔ c ∈ cols ∨ c ∈ new := by
  simp only [addCols, List.mem_append, List.mem_filter, decide_eq_true_eq]
  tauto

theorem addCols_eq_self (cols new : List String) (h : ∀ c ∈ new, c ∈ cols) :
    addCols cols new = cols := by
  have h0 : new.filter (fun c => decide (c ∉ cols)) = [] :=
    List.filter_eq_nil_iff.2 (fun c hc => by simpa using h c hc)
  simp only [addCols, h0, List.append_nil]

/-! The cell order is transitive and total; so is the key order. -/

theorem Scalar.seq_refl (a : Scalar) : Scalar.seq a a := ⟨rfl, rfl, rfl⟩

theorem Scalar.slt_trans {a b c : Scalar} (h1 : Scalar.slt a b) (h2 : Scalar.slt b c) :
    Scalar.slt a c := by
  rcases h1 with h1 | ⟨hr1, h1⟩ <;> rcases h2 with h2 | ⟨hr2, h2⟩
  · exact Or.inl (h1.trans h2)
  · exact Or.inl (hr2 ▸ h1)
  · exact Or.inl (hr1 ▸ h2)
  · refine Or.inr ⟨hr1.trans hr2, ?_⟩
    rcases h1 with h1 | ⟨hq1, h1⟩ <;> rcases h2 with h2 | ⟨hq2, h2⟩
    · exact Or.inl (h1.trans h2)
    · exact Or.inl (hq2 ▸ h1)
    · exact Or.inl (hq1 ▸ h2)
    · exact Or.inr ⟨hq1.trans hq2, h1.trans h2⟩

theorem Scalar.slt_of_slt_of_seq {a b c : Scalar} (h1 : Scalar.slt a b)
    (h2 : Scalar.seq b c) : Scalar.slt a c := by
  obtain ⟨e1, e2, e3⟩ := h2
  rcases h1 with h1 | ⟨hr, h1⟩
  · exact Or.inl (e1 ▸ h1)
  · refine Or.inr ⟨hr.trans e1, ?_⟩
    rcases h1 with h1 | ⟨hq, h1⟩
    · exact Or.inl (e2 ▸ h1)
    · exact Or.inr ⟨hq.trans e2, e3 ▸ h1⟩

theorem Scalar.slt_of_seq_of_slt {a b c : Scalar} (h1 : Scalar.seq a b)
    (h2 : Scalar.slt b c) : Scalar.slt a c := by
  obtain ⟨e1, e2, e3⟩ := h1
  rcases h2 with h2 | ⟨hr, h2⟩
  · exact Or.inl (e1 ▸ h2)
  · refine Or.inr ⟨e1.trans hr, ?_⟩
    rcases h2 with h2 | ⟨hq, h2⟩
    · exact Or.inl (e2 ▸ h2)
    · exact Or.inr ⟨e2.trans hq, e3 ▸ h2⟩

theorem Scalar.seq_trans {a b c : Scalar} (h1 : Scalar.seq a b) (h2 : Scalar.seq b c) :
    Scalar.seq a c :=
  ⟨h1.1.trans h2.1, h1.2.1.trans h2.2.1, h1.2.2.trans h2.2.2⟩

theorem scalar_le_trans {a b c : Scalar} (h1 : Scalar.le a b) (h2 : Scalar.le b c) :
    Scalar.le a c := by
  rcases h1 with h1 | h1 <;> rcases h2 with h2 | h2
  · exact Or.inl (Scalar.slt_trans h1 h2)
  · exact Or.inl (Scalar.slt_of_slt_of_seq h1 h2)
  · exact Or.inl (Scalar.slt_of_seq_of_slt h1 h2)
  · exact Or.inr (Scalar.seq_trans h1 h2)

theorem scalar_le_total (a b : Scalar) : Scalar.le a b ∨ Scalar.le b a := by
  rcases lt_trichotomy a.rank b.rank with h | h | h
  · exact Or.inl (Or.inl (Or.inl h))
  · rcases lt_trichotomy a.ratKey b.ratKey with h' | h' | h'
    · exact Or.inl (Or.inl (Or.inr ⟨h, Or.inl h'⟩))
    · rcases le_total a.strKey b.strKey with h'' | h''
      · rcases lt_or_eq_of_le h'' with h'' | h''
        · exact Or.inl (Or.inl (Or.inr ⟨h, Or.inr ⟨h', h''⟩⟩))
        · exact Or.inl (Or.inr ⟨h, h', h''⟩)
      · rcases lt_or_eq_of_le h'' with h'' | h''
        · exact Or.inr (Or.inl (Or.inr ⟨h.symm, Or.inr ⟨h'.symm, h''⟩⟩))
        · exact Or.inr (Or.inr ⟨h.symm, h'.symm, h''⟩)
    · exact Or.inr (Or.inl (Or.inr ⟨h.symm, Or.inl h'⟩))
  · exact Or.inr (Or.inl (Or.inl h))

theorem keyLe_trans : ∀ {k l m : List Scalar}, keyLe k l → keyLe l m → keyLe k m
  | [], _, _, _, _ => trivial
  | _ :: _, [], _, h1, _ => absurd h1 (by simp [keyLe])
  | _ :: _, _ :: _, [], _, h2 => absurd h2 (by simp [keyLe])
  | a :: k, b :: l, c :: m, h1, h2 => by
    simp only [keyLe] at h1 h2 ⊢
    rcases h1 with h1 | ⟨e1, h1⟩ <;> rcases h2 with h2 | ⟨e2, h2⟩
    · exact Or.inl (Scalar.slt_trans h1 h2)
    · exact Or.inl (Scalar.slt_of_slt_of_seq h1 e2)
    · exact Or.inl (Scalar.slt_of_seq_of_slt e1 h2)
    · exact Or.inr ⟨Scalar.seq_trans e1 e2, keyLe_trans h1 h2⟩

theorem keyLe_total : ∀ (k l : List Scalar), keyLe k l ∨ keyLe l k
  | [], _ => Or.inl trivial
  | _ :: _, [] => Or.inr trivial
  | a :: k, b :: l => by
    simp only [keyLe]
    rcases scalar_le_total a b with h | h
    · rcases h with h | h
      · exact Or.inl (Or.inl h)
      · rcases keyLe_total k l with h' | h'
        · exact Or.inl (Or.inr ⟨h, h'⟩)
        · exact Or.inr (Or.inr ⟨⟨h.1.symm, h.2.1.symm, h.2.2.symm⟩, h'⟩)
    · rcases h with h | h
      · exact Or.inr (Or.inl h)
      · rcases keyLe_total k l with h' | h'
        · exact Or.inl (Or.inr ⟨⟨h.1.symm, h.2.1.symm, h.2.2.symm⟩, h'⟩)
        · exact Or.inr (Or.inr ⟨h, h'⟩)

instance : IsTrans (List Scalar) keyLe := ⟨fun _ _ _ => keyLe_trans⟩

instance : IsTotal (List Scalar) keyLe := ⟨keyLe_total⟩

instance : IsTrans Row dateRowLe :=
  ⟨fun _ _ _ h1 h2 => scalar_le_trans h1 h2⟩

instance : IsTotal Row dateRowLe :=
  ⟨fun r s => scalar_le_total (r.get "date") (s.get "date")⟩

/-! Lemmas about the option-valued row map. -/

theorem mapO_mem {f : α → Option α} : ∀ {l l' : List α}, mapO f l = some l' →
    ∀ b ∈ l', ∃ a ∈ l, f a = some b := by
  intro l
  induction l with
  | nil =>
    intro l' h b hb
    simp [mapO] at h
    subst h
    simp at hb
  | cons a l ih =>
    intro l' h b hb
    simp only [mapO] at h
    rcases ha : f a with _ | b0 <;> rw [ha] at h
    · simp at h
    rcases hl : mapO f l with _ | bs <;> rw [hl] at h
    · simp at h
    simp at h
    subst h
    rcases List.mem_cons.1 hb with hb | hb
    · exact ⟨a, List.mem_cons_self a l, hb ▸ ha⟩
    · obtain ⟨a', ha', hfa'⟩ := ih hl b hb
      exact ⟨a', List.mem_cons_of_mem a ha', hfa'⟩

theorem mapO_fix {f : α → Option α} : ∀ {l : List α},
    (∀ a ∈ l, f a = some a) → mapO f l = some l := by
  intro l
  induction l with
  | nil => intro _; rfl
  | cons a l ih =>
    intro h
    simp only [mapO, h a (List.mem_cons_self a l),
      ih (fun b hb => h b (List.mem_cons_of_mem a hb))]

/-! Claim C1: day-of-week conventions of the two normalizers. -/

/-- C1 (amended): the two backends use fixed but DIFFERENT day-of-week
conventions — `data_transformer.clean_data` derives pandas `dt.dayofweek`
(Monday = 0 … Sunday = 6) while `pyspark_transformer.clean_data` derives
Spark `dayofweek` (Sunday = 1 … Saturday = 7).  The two values are related
by the fixed bijection `spark = (pandas + 1) % 7 + 1` and never coincide on
any day. -/
theorem c1_day_of_week_conventions (z : Int) :
    0 ≤ pandasDayOfWeek z ∧ pandasDayOfWeek z ≤ 6 ∧
    1 ≤ sparkDayOfWeek z ∧ sparkDayOfWeek z ≤ 7 ∧
    sparkDayOfWeek z = (pandasDayOfWeek z + 1) % 7 + 1 ∧
    pandasDayOfWeek z ≠ sparkDayOfWeek z := by
  unfold pandasDayOfWeek sparkDayOfWeek
  omega

/-- C1 counterexample: on the timestamp 259200 s (1970-01-04, a Sunday) the
single-node normalizer assigns day_of_week 6 and the distributed normalizer
assigns 1, so the backends do not share one convention. -/
theorem c1_counterexample :
    (clean_data ⟨["timestamp"], [[("timestamp", .datetime 259200)]]⟩).map
        (fun d => d.rows.map (fun r => r.get "day_of_week")) = some [Scalar.int 6] ∧
    (spark_clean ⟨["timestamp"], [[("timestamp", .datetime 259200)]]⟩).rows.map
        (fun r => r.get "day_of_week") = [Scalar.int 1] ∧
    Scalar.int 6 ≠ Scalar.int 1 := by decide

/-! Claim C7: behavior of the two loaders on an empty location set. -/

/-- C7 (amended): the single-node `load_csv_files` raises its empty-input
error (the `ValueError` of line 42) exactly when the location set resolves
to zero files; the distributed `load_csv_files` performs no such check of
its own. -/
theorem c7_empty_input (files : List DataFrame) :
    (files = [] → load_csv_files files = .error .noCSVFiles) ∧
    (files ≠ [] → load_csv_files files = .ok (concatFrames files)) := by
  constructor
  · intro h
    simp [load_csv_files, h]
  · intro h
    simp [load_csv_files, h]

theorem c7_witness :
    load_csv_files ([] : List DataFrame) = .error .noCSVFiles ∧
    load_csv_files [(⟨["a"], []⟩ : DataFrame)] =
      .ok (concatFrames [(⟨["a"], []⟩ : DataFrame)]) :=
  ⟨(c7_empty_input []).1 rfl, (c7_empty_input [⟨["a"], []⟩]).2 (by simp)⟩

/-- C7 counterexample: on zero files the distributed backend's load does not
fail with any empty-input error — it returns the empty dataset. -/
theorem c7_counterexample :
    spark_load_csv_files [] = (⟨[], []⟩ : DataFrame) := rfl

/-! Claim C8: loading files whose column sets disagree. -/

theorem mem_foldl_addCols (files : List DataFrame) (acc : List String) (c : String) :
    c ∈ files.foldl (fun a f => addCols a f.cols) acc ↔
      c ∈ acc ∨ ∃ f ∈ files, c ∈ f.cols := by
  induction files generalizing acc with
  | nil => simp
  | cons f fs ih =>
    simp only [List.foldl_cons, ih, mem_addCols, List.mem_cons]
    constructor
    · rintro (⟨h | h⟩ | ⟨g, hg, hc⟩)
      · exact Or.inl h
      · exact Or.inr ⟨f, Or.inl rfl, h⟩
      · exact Or.inr ⟨g, Or.inr hg, hc⟩
    · rintro (h | ⟨g, hg | hg, hc⟩)
      · exact Or.inl (Or.inl h)
      · exact Or.inl (Or.inr (hg ▸ hc))
      · exact Or.inr ⟨g, hg, hc⟩

/-- C8 (amended): `load_csv_files` never compares column sets.  Any
non-empty list of files — whether their column sets agree or not — is
concatenated into one combined dataset: every file's rows all appear and
every file's columns all appear (`pd.concat` takes the union of the column
sets, reading the cells a source file lacks as null). -/
theorem c8_no_schema_check (files : List DataFrame) (h : files ≠ []) :
    load_csv_files files = .ok (concatFrames files) ∧
    (concatFrames files).rows = (files.map DataFrame.rows).flatten ∧
    ∀ f ∈ files, ∀ c ∈ f.cols, c ∈ (concatFrames files).cols := by
  refine ⟨by simp [load_csv_files, h], rfl, ?_⟩
  intro f hf c hc
  exact (mem_foldl_addCols files [] c).2 (Or.inr ⟨f, hf, hc⟩)

theorem c8_witness :
    (⟨["a"], [[("a", .int 1)]]⟩ : DataFrame).cols ≠
      (⟨["b"], [[("b", .int 2)]]⟩ : DataFrame).cols ∧
    load_csv_files [⟨["a"], [[("a", .int 1)]]⟩, ⟨["b"], [[("b", .int 2)]]⟩] =
      .ok (concatFrames [⟨["a"], [[("a", .int 1)]]⟩, ⟨["b"], [[("b", .int 2)]]⟩]) :=
  ⟨by decide,
   (c8_no_schema_check [⟨["a"], [[("a", .int 1)]]⟩, ⟨["b"], [[("b", .int 2)]]⟩]
     (by simp)).1⟩

/-- C8 counterexample: two files that disagree on their column sets load
without any error into a combined dataset holding both rows, with the union
of the two column sets — no `SchemaMismatchError` exists in the source. -/
theorem c8_counterexample :
    load_csv_files [⟨["a"], [[("a", .int 1)]]⟩, ⟨["b"], [[("b", .int 2)]]⟩] =
      .ok ⟨["a", "b"], [[("a", .int 1)], [("b", .int 2)]]⟩ ∧
    (["a"] : List String) ≠ ["b"] := ⟨rfl, by decide⟩

/-! Claim C5: the set of produced view names. -/

/-- C5: in both backends the views produced by `aggregate_data` are exactly
`sales_by_category`, `sales_by_date` and `product_performance`, plus
`payment_analysis` iff the input has a `payment_method` column and
`gift_analysis` iff it has an `is_gift` column; no other view ever appears
and both backends produce the same names. -/
theorem c5_view_names (df : DataFrame) :
    ("sales_by_category" ∈ (aggregate_data df).map Prod.fst ∧
     "sales_by_date" ∈ (aggregate_data df).map Prod.fst ∧
     "product_performance" ∈ (aggregate_data df).map Prod.fst) ∧
    ("payment_analysis" ∈ (aggregate_data df).map Prod.fst ↔
      "payment_method" ∈ df.cols) ∧
    ("gift_analysis" ∈ (aggregate_data df).map Prod.fst ↔ "is_gift" ∈ df.cols) ∧
    (∀ n ∈ (aggregate_data df).map Prod.fst,
      n ∈ ["sales_by_category", "sales_by_date", "product_performance",
           "payment_analysis", "gift_analysis"]) ∧
    (spark_aggregate_data df).map Prod.fst = (aggregate_data df).map Prod.fst := by
  by_cases hp : "payment_method" ∈ df.cols <;>
    by_cases hg : "is_gift" ∈ df.cols <;>
      simp [aggregate_data, spark_aggregate_data, hp, hg]

/-! Claim C10: rows with a null grouping key are silently dropped by the
single-node aggregation. -/

theorem validKey_category (s : Row) :
    validKey ["category"] s = decide (s.get "category" ≠ .null) := by
  simp [validKey, keyOf]

theorem pandasGroupby_filter (ks : List String) (rows : List Row) :
    pandasGroupby ks (rows.filter (validKey ks)) = pandasGroupby ks rows := by
  simp [pandasGroupby, List.filter_filter]

/-- C10: a row whose `category` cell is null is dropped by
`df.groupby('category')` (pandas default `dropna=True`): it belongs to no
group of `sales_by_category`, and the whole view is unchanged when all such
rows are removed from the input — their `total_price`, `quantity` and count
contribute to no output row. -/
theorem c10_null_group_key (df : DataFrame) (r : Row) (_hr : r ∈ df.rows)
    (hnull : r.get "category" = .null) :
    (∀ kg ∈ pandasGroupby ["category"] df.rows, r ∉ kg.2) ∧
    sales_by_category df =
      sales_by_category
        ⟨df.cols, df.rows.filter (fun s => decide (s.get "category" ≠ .null))⟩ := by
  constructor
  · intro kg hkg hrkg
    simp only [pandasGroupby, List.mem_map] at hkg
    obtain ⟨k, _, hk⟩ := hkg
    rw [← hk] at hrkg
    have h1 : r ∈ df.rows.filter (validKey ["category"]) :=
      List.mem_of_mem_filter hrkg
    have h2 : validKey ["category"] r = true := List.of_mem_filter h1
    rw [validKey_category, hnull] at h2
    simp at h2
  · have hpred : (fun s => decide (s.get "category" ≠ .null)) = validKey ["category"] := by
      funext s
      rw [validKey_category]
    simp only [sales_by_category, hpred]
    rw [pandasGroupby_filter]

theorem c10_witness :
    (∀ kg ∈ pandasGroupby ["category"]
        (⟨["category"], [[("category", .null)], [("category", .str "Books")]]⟩ :
          DataFrame).rows,
      [("category", Scalar.null)] ∉ kg.2) ∧
    sales_by_category
        (⟨["category"], [[("category", .null)], [("category", .str "Books")]]⟩ :
          DataFrame) =
      sales_by_category
        ⟨["category"],
         ([[("category", .null)], [("category", .str "Books")]] : List Row).filter
           (fun s => decide (s.get "category" ≠ .null))⟩ :=
  c10_null_group_key
    ⟨["category"], [[("category", .null)], [("category", .str "Books")]]⟩
    [("category", .null)] (by simp) (by decide)

/-! Claim C2: counting rows across groups. -/

/-- Integer value of an int cell (0 on anything else). -/
def intVal : Scalar → Int
  | .int n => n
  | _ => 0

theorem sum_map_nat_add {β : Type} (l : List β) (f g : β → Nat) :
    (l.map (fun b => f b + g b)).sum = (l.map f).sum + (l.map g).sum := by
  induction l with
  | nil => simp
  | cons b l ih =>
    simp only [List.map_cons, List.sum_cons, ih]
    ring

theorem sum_indicator_one {β : Type} [DecidableEq β] (keys : List β) (x : β)
    (hnd : keys.Nodup) (hx : x ∈ keys) :
    (keys.map (fun k => if x = k then 1 else 0)).sum = (1 : Nat) := by
  induction keys with
  | nil => cases hx
  | cons k ks ih =>
    rcases List.mem_cons.1 hx with h | h
    · subst h
      have hz : ∀ k' ∈ ks, (if x = k' then 1 else 0) = (0 : Nat) := by
        intro k' hk'
        have : ¬ x = k' := fun e => (List.nodup_cons.1 hnd).1 (e ▸ hk')
        simp [this]
      simp only [List.map_cons, List.sum_cons, if_pos rfl]
      have : (ks.map (fun k' => if x = k' then 1 else 0)).sum = 0 :=
        List.sum_eq_zero (by
          intro n hn
          obtain ⟨k', hk', hke⟩ := List.mem_map.1 hn
          rw [← hke]
          exact hz k' hk')
      rw [this]
      simp
    · have hne : ¬ x = k := fun e => (List.nodup_cons.1 hnd).1 (e ▸ h)
      simp only [List.map_cons, List.sum_cons, if_neg hne,
        ih (List.nodup_cons.1 hnd).2 h]

/-- Rows partition across the distinct key values: the group sizes over any
duplicate-free covering key list add up to the row count. -/
theorem sum_group_lengths {β : Type} [DecidableEq β] (f : α → β) :
    ∀ (l : List α) (keys : List β), keys.Nodup → (∀ a ∈ l, f a ∈ keys) →
      (keys.map (fun k => (l.filter (fun a => decide (f a = k))).length)).sum
        = l.length := by
  intro l
  induction l with
  | nil =>
    intro keys _ _
    simp
  | cons a l ih =>
    intro keys hnd hcov
    have hsplit : (keys.map (fun k =>
        ((a :: l).filter (fun x => decide (f x = k))).length)).sum
        = (keys.map (fun k => ((if f a = k then 1 else 0) : Nat)
            + (l.filter (fun x => decide (f x = k))).length)).sum := by
      congr 1
      refine List.map_congr_left ?_
      intro k _
      by_cases h : f a = k <;> simp [List.filter_cons, h, Nat.add_comm]
    rw [hsplit, sum_map_nat_add,
      sum_indicator_one keys (f a) hnd (hcov a (List.mem_cons_self a l)),
      ih keys hnd (fun x hx => hcov x (List.mem_cons_of_mem a hx))]
    exact Nat.add_comm 1 l.length

theorem countCells_eq_length (g : List Row) (c : String)
    (h : ∀ r ∈ g, r.get c ≠ .null) :
    countCells (colCells g c) = g.length := by
  unfold countCells colCells
  rw [List.filter_map, List.length_map, List.filter_eq_self.2]
  intro r hr
  simpa using h r hr

/-- Summing the per-group non-null counts of a column over a pandas groupby
yields the row count, provided no row is dropped for a null key and the
counted column is never null. -/
theorem pandas_group_count (ks : List String) (rows : List Row) (tid : String)
    (hvalid : ∀ r ∈ rows, validKey ks r = true)
    (htid : ∀ r ∈ rows, r.get tid ≠ .null) :
    ((pandasGroupby ks rows).map
      (fun kg => countCells (colCells kg.2 tid))).sum = rows.length := by
  unfold pandasGroupby
  have hfix : rows.filter (validKey ks) = rows := List.filter_eq_self.2 hvalid
  rw [hfix]
  rw [List.map_map]
  have hcnt : ∀ k, countCells (colCells
      (rows.filter (fun r => decide (keyOf ks r = k))) tid)
      = (rows.filter (fun r => decide (keyOf ks r = k))).length := by
    intro k
    exact countCells_eq_length _ _
      (fun r hr => htid r (List.mem_of_mem_filter hr))
  have hmapeq : (List.insertionSort keyLe ((rows.map (keyOf ks)).dedup)).map
        ((fun kg => countCells (colCells kg.2 tid)) ∘
          (fun k => (k, rows.filter (fun r => decide (keyOf ks r = k)))))
      = (List.insertionSort keyLe ((rows.map (keyOf ks)).dedup)).map
        (fun k => (rows.filter (fun r => decide (keyOf ks r = k))).length) := by
    refine List.map_congr_left ?_
    intro k _
    exact hcnt k
  rw [hmapeq]
  have hperm : List.Perm (List.insertionSort keyLe ((rows.map (keyOf ks)).dedup))
      ((rows.map (keyOf ks)).dedup) :=
    List.perm_insertionSort keyLe _
  rw [(hperm.map (fun k => (rows.filter
    (fun r => decide (keyOf ks r = k))).length)).sum_eq]
  exact sum_group_lengths (keyOf ks) rows _ (List.nodup_dedup _)
    (fun r hr => List.mem_dedup.2 (List.mem_map_of_mem (keyOf ks) hr))

/-- Spark version: grouping drops nothing, so only the counted column needs
to be non-null. -/
theorem spark_group_count (ks : List String) (rows : List Row) (tid : String)
    (htid : ∀ r ∈ rows, r.get tid ≠ .null) :
    ((sparkGroupby ks rows).map
      (fun kg => countCells (colCells kg.2 tid))).sum = rows.length := by
  unfold sparkGroupby
  rw [List.map_map]
  have hmapeq : ((rows.map (keyOf ks)).dedup).map
        ((fun kg => countCells (colCells kg.2 tid)) ∘
          (fun k => (k, rows.filter (fun r => decide (keyOf ks r = k)))))
      = ((rows.map (keyOf ks)).dedup).map
        (fun k => (rows.filter (fun r => decide (keyOf ks r = k))).length) := by
    refine List.map_congr_left ?_
    intro k _
    exact countCells_eq_length _ _
      (fun r hr => htid r (List.mem_of_mem_filter hr))
  rw [hmapeq]
  exact sum_group_lengths (keyOf ks) rows _ (List.nodup_dedup _)
    (fun r hr => List.mem_dedup.2 (List.mem_map_of_mem (keyOf ks) hr))

theorem sum_map_intCast {β : Type} (l : List β) (f : β → Nat) :
    (l.map (fun b => ((f b : Nat) : Int))).sum = ((l.map f).sum : Int) := by
  induction l with
  | nil => simp
  | cons b l ih =>
    simp only [List.map_cons, List.sum_cons, ih]
    push_cast
    ring

/-- C2 (amended): when every row of the normalized dataset has a non-null
`category` and a non-null `transaction_id`, the `num_transactions` totals of
`sales_by_category` add up to the row count in both backends — every row is
counted in exactly one group.  (The unrestricted claim fails: pandas drops
null-category rows from the grouping, and both backends' `COUNT`/`count` of
`transaction_id` skips null ids; see the counterexample.) -/
theorem c2_category_counts (df : DataFrame)
    (hcat : ∀ r ∈ df.rows, r.get "category" ≠ .null)
    (htid : ∀ r ∈ df.rows, r.get "transaction_id" ≠ .null) :
    ((sales_by_category df).rows.map
      (fun r => intVal (r.get "num_transactions"))).sum = (df.rows.length : Int) ∧
    ((spark_sales_by_category df).rows.map
      (fun r => intVal (r.get "num_transactions"))).sum = (df.rows.length : Int) := by
  have hvalid : ∀ r ∈ df.rows, validKey ["category"] r = true := by
    intro r hr
    rw [validKey_category]
    simpa using hcat r hr
  constructor
  · have h1 : (sales_by_category df).rows.map
        (fun r => intVal (r.get "num_transactions"))
        = (pandasGroupby ["category"] df.rows).map
            (fun kg => ((countCells (colCells kg.2 "transaction_id") : Nat) : Int)) := by
      simp only [sales_by_category, List.map_map]
      refine List.map_congr_left ?_
      intro kg _
      simp [salesByCategoryRow, Row.get, intVal]
    rw [h1, sum_map_intCast, pandas_group_count _ _ _ hvalid htid]
  · have h1 : (spark_sales_by_category df).rows.map
        (fun r => intVal (r.get "num_transactions"))
        = (sparkGroupby ["category"] df.rows).map
            (fun kg => ((countCells (colCells kg.2 "transaction_id") : Nat) : Int)) := by
      simp only [spark_sales_by_category, List.map_map]
      refine List.map_congr_left ?_
      intro kg _
      simp [Row.get, intVal]
    rw [h1, sum_map_intCast, spark_group_count _ _ _ htid]

theorem c2_witness :
    ((sales_by_category ⟨["category", "transaction_id"],
        [[("category", .str "Books"), ("transaction_id", .str "a")],
         [("category", .str "Toys"), ("transaction_id", .str "b")]]⟩).rows.map
      (fun r => intVal (r.get "num_transactions"))).sum = ((2 : Nat) : Int) ∧
    ((spark_sales_by_category ⟨["category", "transaction_id"],
        [[("category", .str "Books"), ("transaction_id", .str "a")],
         [("category", .str "Toys"), ("transaction_id", .str "b")]]⟩).rows.map
      (fun r => intVal (r.get "num_transactions"))).sum = ((2 : Nat) : Int) :=
  c2_category_counts
    ⟨["category", "transaction_id"],
     [[("category", .str "Books"), ("transaction_id", .str "a")],
      [("category", .str "Toys"), ("transaction_id", .str "b")]]⟩
    (by decide) (by decide)

/-- C2 counterexample: a single row whose `category` is null is dropped by
the pandas grouping, so `sales_by_category` has no output row at all and the
`num_transactions` total is 0, not the row count 1. -/
theorem c2_counterexample :
    ((sales_by_category ⟨["category", "transaction_id"],
        [[("category", .null), ("transaction_id", .str "a")]]⟩).rows.map
      (fun r => intVal (r.get "num_transactions"))).sum ≠ ((1 : Nat) : Int) := by
  decide

/-! Claim C6: ordering of the sales-by-date view. -/

theorem keyLe_single {a b : Scalar} (h : keyLe [a] [b]) : Scalar.le a b := by
  simp only [keyLe] at h
  rcases h with h | ⟨h, _⟩
  · exact Or.inl h
  · exact Or.inr h

/-- The group keys of a single-column pandas groupby, read off the produced
pairs, are sorted ascending: `groupby(sort=True)` sorts them. -/
theorem pandasGroupby_keys_sorted_single (c : String) (rows : List Row) :
    List.Sorted Scalar.le
      ((pandasGroupby [c] rows).map (fun kg => kg.1.headD .null)) := by
  unfold pandasGroupby
  rw [List.map_map]
  have hcomp : ((fun kg : List Scalar × List Row => kg.1.headD Scalar.null) ∘
      (fun k => (k, (rows.filter (validKey [c])).filter
        (fun r => decide (keyOf [c] r = k)))))
      = fun k : List Scalar => k.headD .null := rfl
  rw [hcomp]
  have hs : List.Sorted keyLe (List.insertionSort keyLe
      (((rows.filter (validKey [c])).map (keyOf [c])).dedup)) :=
    List.sorted_insertionSort keyLe _
  refine List.pairwise_map.2 ?_
  refine hs.imp_of_mem ?_
  intro k l hk hl hkl
  have hperm := List.perm_insertionSort keyLe
    (((rows.filter (validKey [c])).map (keyOf [c])).dedup)
  have hk1 : k ∈ ((rows.filter (validKey [c])).map (keyOf [c])).dedup :=
    hperm.mem_iff.1 hk
  have hl1 : l ∈ ((rows.filter (validKey [c])).map (keyOf [c])).dedup :=
    hperm.mem_iff.1 hl
  obtain ⟨r1, _, hr1⟩ := List.mem_map.1 (List.mem_dedup.1 hk1)
  obtain ⟨r2, _, hr2⟩ := List.mem_map.1 (List.mem_dedup.1 hl1)
  rw [← hr1, ← hr2]
  rw [← hr1, ← hr2] at hkl
  exact keyLe_single hkl

/-- C6: in both backends the rows of the `sales_by_date` view come out
sorted ascending by their date key — in the distributed backend by the
explicit `ORDER BY date` of the query, in the single-node backend by the
key sorting of `groupby(sort=True)`. -/
theorem c6_sales_by_date_sorted (df : DataFrame) :
    List.Sorted Scalar.le ((sales_by_date df).rows.map (fun r => r.get "date")) ∧
    List.Sorted Scalar.le
      ((spark_sales_by_date df).rows.map (fun r => r.get "date")) := by
  constructor
  · have h1 : (sales_by_date df).rows.map (fun r => r.get "date")
        = (pandasGroupby ["date"] df.rows).map (fun kg => kg.1.headD .null) := by
      simp only [sales_by_date, List.map_map]
      refine List.map_congr_left ?_
      intro kg _
      simp [salesByDateRow, Row.get]
    rw [h1]
    exact pandasGroupby_keys_sorted_single "date" df.rows
  · have hs : List.Sorted dateRowLe (spark_sales_by_date df).rows :=
      List.sorted_insertionSort dateRowLe _
    exact List.pairwise_map.2 (hs.imp (fun h => h))

/-! Claim C9: missing ratings become 0 and keep full weight in avg_rating. -/

/-- Rational value of a numeric cell (0 on non-numeric). -/
def ratVal : Scalar → Rat
  | .float x => x
  | .int n => n
  | .bool b => if b then 1 else 0
  | _ => 0

theorem filterMap_cellRat_float (cells : List Scalar)
    (h : ∀ v ∈ cells, ∃ x, v = Scalar.float x) :
    cells.filterMap cellRat = cells.map ratVal := by
  induction cells with
  | nil => rfl
  | cons v vs ih =>
    obtain ⟨x, hx⟩ := h v (List.mem_cons_self _ _)
    subst hx
    simp [List.filterMap_cons, cellRat, ratVal,
      ih (fun w hw => h w (List.mem_cons_of_mem _ hw))]

theorem meanCells_all_float (cells : List Scalar) (hne : cells ≠ [])
    (h : ∀ v ∈ cells, ∃ x, v = Scalar.float x) :
    meanCells cells = .float ((cells.map ratVal).sum / cells.length) := by
  unfold meanCells
  rw [filterMap_cellRat_float cells h]
  cases cells with
  | nil => exact absurd rfl hne
  | cons v vs => simp

theorem pandasGroupby_group_ne_nil (ks : List String) (rows : List Row)
    (kg : List Scalar × List Row) (h : kg ∈ pandasGroupby ks rows) :
    kg.2 ≠ [] := by
  unfold pandasGroupby at h
  obtain ⟨k, hk, hpair⟩ := List.mem_map.1 h
  have hk2 : k ∈ ((rows.filter (validKey ks)).map (keyOf ks)).dedup :=
    (List.perm_insertionSort keyLe _).mem_iff.1 hk
  obtain ⟨r, hr, hrk⟩ := List.mem_map.1 (List.mem_dedup.1 hk2)
  rw [← hpair]
  intro hnil
  have hmem : r ∈ (rows.filter (validKey ks)).filter
      (fun s => decide (keyOf ks s = k)) :=
    List.mem_filter.2 ⟨hr, by simp [hrk]⟩
  have hnil2 : (rows.filter (validKey ks)).filter
      (fun s => decide (keyOf ks s = k)) = [] := hnil
  rw [hnil2] at hmem
  simp at hmem

theorem pandasGroupby_group_subset (ks : List String) (rows : List Row)
    (kg : List Scalar × List Row) (h : kg ∈ pandasGroupby ks rows) :
    ∀ s ∈ kg.2, s ∈ rows := by
  unfold pandasGroupby at h
  obtain ⟨k, _, hpair⟩ := List.mem_map.1 h
  intro s hs
  rw [← hpair] at hs
  exact List.mem_of_mem_filter (List.mem_of_mem_filter hs)

/-- C9: a row whose raw `rating` is missing is normalized to `rating = 0`
by `clean_data`'s `fillna(0)`, and over any dataset whose ratings are (as
after normalization) all floats, the `avg_rating` of every
`product_performance` group is the group's rating sum divided by the FULL
group size — the zero-filled rows are included with weight equal to their
row count, not dropped. -/
theorem c9_null_rating (hg : Bool) (r r' : Row)
    (hclean : cleanRow hg r = some r') (hnull : r.get "rating" = .null)
    (df : DataFrame)
    (hrat : ∀ s ∈ df.rows, ∃ x, s.get "rating" = Scalar.float x) :
    r'.get "rating" = .float 0 ∧
    (∀ kg ∈ pandasGroupby ["category", "product_name"] df.rows,
      kg.2 ≠ [] ∧
      meanCells (colCells kg.2 "rating")
        = .float (((colCells kg.2 "rating").map ratVal).sum / kg.2.length)) ∧
    (∀ p ∈ (product_performance df).rows,
      ∃ kg ∈ pandasGroupby ["category", "product_name"] df.rows,
        p.get "avg_rating" = meanCells (colCells kg.2 "rating")) := by
  refine ⟨?_, ?_, ?_⟩
  · simp only [cleanRow] at hclean
    split at hclean
    · exact absurd hclean (by simp)
    · split at hclean
      · exact absurd hclean (by simp)
      · split at hclean
        · split at hclean
          · exact absurd hclean (by simp)
          · injection hclean with h
            subst h
            simp [Row.get_set, fillZero, hnull]
        · injection hclean with h
          subst h
          simp [Row.get_set, fillZero, hnull]
  · intro kg hkg
    have hne := pandasGroupby_group_ne_nil _ _ _ hkg
    have hsub := pandasGroupby_group_subset _ _ _ hkg
    have hcells : ∀ v ∈ colCells kg.2 "rating", ∃ x, v = Scalar.float x := by
      intro v hv
      obtain ⟨s, hs, hsv⟩ := List.mem_map.1 hv
      obtain ⟨x, hx⟩ := hrat s (hsub s hs)
      exact ⟨x, by rw [← hsv, hx]⟩
    have hlen : (colCells kg.2 "rating").length = kg.2.length :=
      List.length_map _ _
    refine ⟨hne, ?_⟩
    rw [meanCells_all_float _ ?_ hcells, hlen]
    intro hnil
    exact hne (List.map_eq_nil_iff.1 hnil)
  · intro p hp
    obtain ⟨kg, hkg, hpr⟩ := List.mem_map.1 hp
    refine ⟨kg, hkg, ?_⟩
    rw [← hpr]
    simp [productPerformanceRow, Row.get]

theorem c9_witness :
    Row.get
      [("timestamp", Scalar.datetime 0), ("price", Scalar.null),
       ("quantity", Scalar.int 3), ("rating", Scalar.float 0),
       ("date", Scalar.date 0), ("year", Scalar.int 1970),
       ("month", Scalar.int 1), ("day", Scalar.int 1),
       ("day_of_week", Scalar.int 3), ("total_price", Scalar.null)]
      "rating" = .float 0 ∧
    (∀ kg ∈ pandasGroupby ["category", "product_name"]
        (⟨["category", "product_name", "rating"],
          [[("category", .str "B"), ("product_name", .str "X"), ("rating", .float 0)],
           [("category", .str "B"), ("product_name", .str "X"), ("rating", .float 4)]]⟩ :
          DataFrame).rows,
      kg.2 ≠ [] ∧
      meanCells (colCells kg.2 "rating")
        = .float (((colCells kg.2 "rating").map ratVal).sum / kg.2.length)) ∧
    (∀ p ∈ (product_performance
        (⟨["category", "product_name", "rating"],
          [[("category", .str "B"), ("product_name", .str "X"), ("rating", .float 0)],
           [("category", .str "B"), ("product_name", .str "X"), ("rating", .float 4)]]⟩ :
          DataFrame)).rows,
      ∃ kg ∈ pandasGroupby ["category", "product_name"]
          (⟨["category", "product_name", "rating"],
            [[("category", .str "B"), ("product_name", .str "X"), ("rating", .float 0)],
             [("category", .str "B"), ("product_name", .str "X"), ("rating", .float 4)]]⟩ :
            DataFrame).rows,
        p.get "avg_rating" = meanCells (colCells kg.2 "rating")) :=
  c9_null_rating false
    [("timestamp", .datetime 0), ("price", .null), ("quantity", .int 3),
     ("rating", .null)]
    [("timestamp", .datetime 0), ("price", .null), ("quantity", .int 3),
     ("rating", .float 0), ("date", .date 0), ("year", .int 1970),
     ("month", .int 1), ("day", .int 1), ("day_of_week", .int 3),
     ("total_price", .null)]
    (by decide) rfl
    ⟨["category", "product_name", "rating"],
      [[("category", .str "B"), ("product_name", .str "X"), ("rating", .float 0)],
       [("category", .str "B"), ("product_name", .str "X"), ("rating", .float 4)]]⟩
    (by
      intro s hs
      simp only [List.mem_cons, List.not_mem_nil, or_false] at hs
      rcases hs with h | h <;> subst h <;> exact ⟨_, rfl⟩)

/-! Claim C4: what actually happens to uncoercible scalars. -/

/-- C4 (amended): no `TypeCoercionError` exists in either backend.  For a
`price` cell holding a non-numeric string, the distributed normalizer's
`cast(DoubleType())` silently replaces the value with null and the pipeline
proceeds, while the single-node normalizer applies no coercion to `price` at
all — whenever it succeeds, it passes the string through unchanged. -/
theorem c4_coercion (hg : Bool) (r : Row) (s : String)
    (hp : r.get "price" = .str s) (hbad : strToInt? s = none) :
    (sparkCleanRow hg r).get "price" = .null ∧
    (∀ r', cleanRow hg r = some r' → r'.get "price" = .str s) := by
  constructor
  · cases hg
    · simp only [sparkCleanRow]
      rw [if_neg (by simp)]
      split <;> simp [Row.get_set, hp, castDoubleSpark, hbad]
    · simp only [sparkCleanRow]
      rw [if_pos trivial]
      split <;> simp [Row.get_set, hp, castDoubleSpark, hbad]
  · intro r' hclean
    simp only [cleanRow] at hclean
    split at hclean
    · exact absurd hclean (by simp)
    · split at hclean
      · exact absurd hclean (by simp)
      · split at hclean
        · split at hclean
          · exact absurd hclean (by simp)
          · injection hclean with h
            subst h
            simp [Row.get_set, hp]
        · injection hclean with h
          subst h
          simp [Row.get_set, hp]

theorem c4_witness :
    (sparkCleanRow false
        [("price", Scalar.str "abc"), ("quantity", Scalar.int 3),
         ("timestamp", Scalar.datetime 0)]).get "price" = .null ∧
    (∀ r', cleanRow false
        [("price", Scalar.str "abc"), ("quantity", Scalar.int 3),
         ("timestamp", Scalar.datetime 0)] = some r' →
      r'.get "price" = .str "abc") :=
  c4_coercion false
    [("price", .str "abc"), ("quantity", .int 3), ("timestamp", .datetime 0)]
    "abc" rfl (by decide)

/-- C4 counterexample: a dataset whose `price` cannot be coerced to a double
is normalized by the distributed backend WITHOUT any error: the offending
value is silently replaced by null (and, on the single-node side, the same
input normalizes to a repeated-string `total_price`, again with no
type-coercion error anywhere). -/
theorem c4_counterexample :
    (spark_clean ⟨["price", "quantity", "rating", "timestamp"],
        [[("price", .str "abc"), ("quantity", .int 2), ("rating", .float 1),
          ("timestamp", .datetime 0)]]⟩).rows.map (fun r => r.get "price")
      = [Scalar.null] ∧
    (clean_data ⟨["price", "quantity", "rating", "timestamp"],
        [[("price", .str "abc"), ("quantity", .int 2), ("rating", .float 1),
          ("timestamp", .datetime 0)]]⟩).map
        (fun d => d.rows.map (fun r => r.get "total_price"))
      = some [Scalar.str "abcabc"] := by decide

/-! Claim C3: idempotence of the two normalizers. -/

theorem fillZero_idem (v : Scalar) : fillZero (fillZero v) = fillZero v := by
  by_cases h : v = .null <;> simp [fillZero, h]

/-- A row that already carries all the derived columns with exactly the
values `cleanRow` would derive is a fixed point of `cleanRow`. -/
theorem cleanRow_fix_of (hg : Bool) (q : Row) (t : Int) (tp : Scalar)
    (hts : q.get "timestamp" = .datetime t)
    (hdate : q.get "date" = .date (dateOfTs t))
    (hyear : q.get "year" = .int (yearOfDays (dateOfTs t)))
    (hmonth : q.get "month" = .int (monthOfDays (dateOfTs t)))
    (hday : q.get "day" = .int (dayOfDays (dateOfTs t)))
    (hdow : q.get "day_of_week" = .int (pandasDayOfWeek (dateOfTs t)))
    (hmul : pandasMul (q.get "price") (q.get "quantity") = some tp)
    (htp : q.get "total_price" = tp)
    (hrat : q.get "rating" = fillZero (q.get "rating"))
    (hgift : hg = true → ∃ g, q.get "is_gift" = .int g)
    (hcts : q.hasCol "timestamp") (hcdate : q.hasCol "date")
    (hcyear : q.hasCol "year") (hcmonth : q.hasCol "month")
    (hcday : q.hasCol "day") (hcdow : q.hasCol "day_of_week")
    (hctp : q.hasCol "total_price") (hcrat : q.hasCol "rating")
    (hcgift : hg = true → q.hasCol "is_gift") :
    cleanRow hg q = some q := by
  simp only [cleanRow, hts, parseTimestamp]
  rw [Row.set_eq_self q "timestamp" _ hcts hts,
    Row.set_eq_self q "date" _ hcdate hdate,
    Row.set_eq_self q "year" _ hcyear hyear,
    Row.set_eq_self q "month" _ hcmonth hmonth,
    Row.set_eq_self q "day" _ hcday hday,
    Row.set_eq_self q "day_of_week" _ hcdow hdow,
    hmul]
  dsimp only
  rw [Row.set_eq_self q "total_price" _ hctp htp,
    Row.set_eq_self q "rating" _ hcrat hrat]
  cases hg
  · rfl
  · obtain ⟨g, hgv⟩ := hgift rfl
    simp only [hgv, castIntPandas]
    rw [Row.set_eq_self q "is_gift" _ (hcgift rfl) hgv]
    simp

/-- The output of `cleanRow` is a fixed point of `cleanRow`: re-cleaning a
cleaned row reproduces it exactly. -/
theorem cleanRow_fix (hg : Bool) (r r' : Row) (h : cleanRow hg r = some r') :
    cleanRow hg r' = some r' := by
  simp only [cleanRow] at h
  split at h
  · exact absurd h (by simp)
  · rename_i t ht
    split at h
    · exact absurd h (by simp)
    · rename_i tp htp
      split at h
      · rename_i hgt
        split at h
        · exact absurd h (by simp)
        · rename_i g hgv
          injection h with h
          subst h
          subst hgt
          refine cleanRow_fix_of true _ t tp ?_ ?_ ?_ ?_ ?_ ?_ ?_ ?_ ?_ ?_ ?_ ?_
              ?_ ?_ ?_ ?_ ?_ ?_ ?_
          · simp [Row.get_set]
          · simp [Row.get_set]
          · simp [Row.get_set]
          · simp [Row.get_set]
          · simp [Row.get_set]
          · simp [Row.get_set]
          · simp only [Row.get_set] at htp ⊢
            simpa using htp
          · simp [Row.get_set]
          · simp [Row.get_set, fillZero_idem]
          · exact fun _ => ⟨g, by simp [Row.get_set]⟩
          · simp [Row.hasCol_set]
          · simp [Row.hasCol_set]
          · simp [Row.hasCol_set]
          · simp [Row.hasCol_set]
          · simp [Row.hasCol_set]
          · simp [Row.hasCol_set]
          · simp [Row.hasCol_set]
          · simp [Row.hasCol_set]
          · exact fun _ => by simp [Row.hasCol_set]
      · rename_i hgf
        injection h with h
        subst h
        have hgfalse : hg = false := by
          cases hg
          · rfl
          · exact absurd rfl hgf
        subst hgfalse
        refine cleanRow_fix_of false _ t tp ?_ ?_ ?_ ?_ ?_ ?_ ?_ ?_ ?_ ?_ ?_ ?_
            ?_ ?_ ?_ ?_ ?_ ?_ ?_
        · simp [Row.get_set]
        · simp [Row.get_set]
        · simp [Row.get_set]
        · simp [Row.get_set]
        · simp [Row.get_set]
        · simp [Row.get_set]
        · simp only [Row.get_set] at htp ⊢
          simpa using htp
        · simp [Row.get_set]
        · simp [Row.get_set, fillZero_idem]
        · intro hcontra
          exact absurd hcontra (by simp)
        · simp [Row.hasCol_set]
        · simp [Row.hasCol_set]
        · simp [Row.hasCol_set]
        · simp [Row.hasCol_set]
        · simp [Row.hasCol_set]
        · simp [Row.hasCol_set]
        · simp [Row.hasCol_set]
        · simp [Row.hasCol_set]
        · intro hcontra
          exact absurd hcontra (by simp)

/-- Re-running the single-node normalizer on its own output reproduces the
output exactly. -/
theorem clean_data_fix (df df' : DataFrame) (h : clean_data df = some df') :
    clean_data df' = some df' := by
  simp only [clean_data] at h
  split at h
  · exact absurd h (by simp)
  · rename_i rows hrows
    injection h with h
    subst h
    have hmem : ("is_gift" ∈ addCols df.cols derivedCols) ↔ ("is_gift" ∈ df.cols) := by
      rw [mem_addCols]
      simp [derivedCols]
    have hgift : decide ("is_gift" ∈ addCols df.cols derivedCols)
        = decide ("is_gift" ∈ df.cols) := decide_eq_decide.2 hmem
    simp only [clean_data, hgift]
    have hfix : mapO (cleanRow (decide ("is_gift" ∈ df.cols))) rows = some rows :=
      mapO_fix (fun b hb => by
        obtain ⟨a, _, hfa⟩ := mapO_mem hrows b hb
        exact cleanRow_fix _ _ _ hfa)
    rw [hfix]
    have hcols : addCols (addCols df.cols derivedCols) derivedCols
        = addCols df.cols derivedCols :=
      addCols_eq_self _ _ (fun c hc => (mem_addCols _ _ c).2 (Or.inr hc))
    rw [hcols]

theorem castDoubleSpark_idem (v : Scalar) :
    castDoubleSpark (castDoubleSpark v) = castDoubleSpark v := by
  cases v
  case str s => cases h : strToInt? s <;> simp [castDoubleSpark, h]
  all_goals rfl

theorem castIntSpark_idem (v : Scalar) :
    castIntSpark (castIntSpark v) = castIntSpark v := by
  cases v
  case str s => cases h : strToInt? s <;> simp [castIntSpark, h]
  all_goals rfl

theorem castDoubleSpark_shape (v : Scalar) :
    (∃ x, castDoubleSpark v = .float x) ∨ castDoubleSpark v = .null := by
  cases v
  case str s => cases h : strToInt? s <;> simp [castDoubleSpark, h]
  case null => exact Or.inr rfl
  case bool b => exact Or.inl ⟨_, rfl⟩
  case int n => exact Or.inl ⟨_, rfl⟩
  case float x => exact Or.inl ⟨_, rfl⟩
  case date d => exact Or.inr rfl
  case datetime t => exact Or.inr rfl

theorem castDoubleSpark_fill (v : Scalar) :
    castDoubleSpark (fillZero (castDoubleSpark v)) = fillZero (castDoubleSpark v) := by
  rcases castDoubleSpark_shape v with ⟨x, hx⟩ | hx <;> rw [hx] <;>
    simp [fillZero, castDoubleSpark]

theorem sparkCleanRow_get_timestamp (hg : Bool) (r : Row) :
    (sparkCleanRow hg r).get "timestamp" = r.get "timestamp" := by
  cases hg
  · simp only [sparkCleanRow]
    rw [if_neg (by simp)]
    split <;> simp [Row.get_set]
  · simp only [sparkCleanRow]
    rw [if_pos trivial]
    split <;> simp [Row.get_set]

theorem sparkCleanRow_get_price (hg : Bool) (r : Row) :
    (sparkCleanRow hg r).get "price" = castDoubleSpark (r.get "price") := by
  cases hg
  · simp only [sparkCleanRow]
    rw [if_neg (by simp)]
    split <;> simp [Row.get_set]
  · simp only [sparkCleanRow]
    rw [if_pos trivial]
    split <;> simp [Row.get_set]

theorem sparkCleanRow_get_quantity (hg : Bool) (r : Row) :
    (sparkCleanRow hg r).get "quantity" = castIntSpark (r.get "quantity") := by
  cases hg
  · simp only [sparkCleanRow]
    rw [if_neg (by simp)]
    split <;> simp [Row.get_set]
  · simp only [sparkCleanRow]
    rw [if_pos trivial]
    split <;> simp [Row.get_set]

theorem sparkCleanRow_get_rating (hg : Bool) (r : Row) :
    (sparkCleanRow hg r).get "rating" = fillZero (castDoubleSpark (r.get "rating")) := by
  cases hg
  · simp only [sparkCleanRow]
    rw [if_neg (by simp)]
    split <;> simp [Row.get_set]
  · simp only [sparkCleanRow]
    rw [if_pos trivial]
    split <;> simp [Row.get_set]

theorem sparkCleanRow_get_total_price (hg : Bool) (r : Row) :
    (sparkCleanRow hg r).get "total_price" = sparkMul (castDoubleSpark (r.get "price")) (castIntSpark (r.get "quantity")) := by
  cases hg
  · simp only [sparkCleanRow]
    rw [if_neg (by simp)]
    split <;> simp [Row.get_set]
  · simp only [sparkCleanRow]
    rw [if_pos trivial]
    split <;> simp [Row.get_set]

theorem sparkCleanRow_get_date (hg : Bool) (r : Row) :
    (sparkCleanRow hg r).get "date"
      = (match parseTimestamp (r.get "timestamp") with
          | some t => Scalar.date (dateOfTs t)
          | none => Scalar.null) := by
  cases hg
  · simp only [sparkCleanRow]
    rw [if_neg (by simp)]
    split <;> rename_i heq <;> simp [Row.get_set] at heq ⊢ <;> rw [heq]
  · simp only [sparkCleanRow]
    rw [if_pos trivial]
    split <;> rename_i heq <;> simp [Row.get_set] at heq ⊢ <;> rw [heq]

theorem sparkCleanRow_get_year (hg : Bool) (r : Row) :
    (sparkCleanRow hg r).get "year"
      = (match parseTimestamp (r.get "timestamp") with
          | some t => Scalar.int (yearOfDays (dateOfTs t))
          | none => Scalar.null) := by
  cases hg
  · simp only [sparkCleanRow]
    rw [if_neg (by simp)]
    split <;> rename_i heq <;> simp [Row.get_set] at heq ⊢ <;> rw [heq]
  · simp only [sparkCleanRow]
    rw [if_pos trivial]
    split <;> rename_i heq <;> simp [Row.get_set] at heq ⊢ <;> rw [heq]

theorem sparkCleanRow_get_month (hg : Bool) (r : Row) :
    (sparkCleanRow hg r).get "month"
      = (match parseTimestamp (r.get "timestamp") with
          | some t => Scalar.int (monthOfDays (dateOfTs t))
          | none => Scalar.null) := by
  cases hg
  · simp only [sparkCleanRow]
    rw [if_neg (by simp)]
    split <;> rename_i heq <;> simp [Row.get_set] at heq ⊢ <;> rw [heq]
  · simp only [sparkCleanRow]
    rw [if_pos trivial]
    split <;> rename_i heq <;> simp [Row.get_set] at heq ⊢ <;> rw [heq]

theorem sparkCleanRow_get_day (hg : Bool) (r : Row) :
    (sparkCleanRow hg r).get "day"
      = (match parseTimestamp (r.get "timestamp") with
          | some t => Scalar.int (dayOfDays (dateOfTs t))
          | none => Scalar.null) := by
  cases hg
  · simp only [sparkCleanRow]
    rw [if_neg (by simp)]
    split <;> rename_i heq <;> simp [Row.get_set] at heq ⊢ <;> rw [heq]
  · simp only [sparkCleanRow]
    rw [if_pos trivial]
    split <;> rename_i heq <;> simp [Row.get_set] at heq ⊢ <;> rw [heq]

theorem sparkCleanRow_get_dow (hg : Bool) (r : Row) :
    (sparkCleanRow hg r).get "day_of_week"
      = (match parseTimestamp (r.get "timestamp") with
          | some t => Scalar.int (sparkDayOfWeek (dateOfTs t))
          | none => Scalar.null) := by
  cases hg
  · simp only [sparkCleanRow]
    rw [if_neg (by simp)]
    split <;> rename_i heq <;> simp [Row.get_set] at heq ⊢ <;> rw [heq]
  · simp only [sparkCleanRow]
    rw [if_pos trivial]
    split <;> rename_i heq <;> simp [Row.get_set] at heq ⊢ <;> rw [heq]

theorem sparkCleanRow_get_gift (r : Row) :
    (sparkCleanRow true r).get "is_gift" = castIntSpark (r.get "is_gift") := by
  simp only [sparkCleanRow]
  rw [if_pos trivial]
  split <;> simp [Row.get_set]

theorem sparkCleanRow_hasCol (hg : Bool) (r : Row) (c : String)
    (hc : "price" = c ∨ "quantity" = c ∨ "rating" = c ∨ "date" = c ∨ "year" = c
      ∨ "month" = c ∨ "day" = c ∨ "day_of_week" = c ∨ "total_price" = c) :
    (sparkCleanRow hg r).hasCol c := by
  rcases hc with rfl | rfl | rfl | rfl | rfl | rfl | rfl | rfl | rfl <;>
    · cases hg
      · simp only [sparkCleanRow]
        rw [if_neg (by simp)]
        split <;> simp [Row.hasCol_set]
      · simp only [sparkCleanRow]
        rw [if_pos trivial]
        split <;> simp [Row.hasCol_set]

theorem sparkCleanRow_hasCol_gift (r : Row) :
    (sparkCleanRow true r).hasCol "is_gift" := by
  simp only [sparkCleanRow]
  rw [if_pos trivial]
  split <;> simp [Row.hasCol_set]

/-- A row already carrying cast-stable cells and the derived columns with
exactly the values the Spark normalizer derives is one of its fixed points. -/
theorem sparkCleanRow_fix_of (hg : Bool) (q : Row)
    (hpr : castDoubleSpark (q.get "price") = q.get "price")
    (hqt : castIntSpark (q.get "quantity") = q.get "quantity")
    (hrt : castDoubleSpark (q.get "rating") = q.get "rating")
    (hrtf : fillZero (q.get "rating") = q.get "rating")
    (hcal : (match parseTimestamp (q.get "timestamp") with
        | some t => q.get "date" = .date (dateOfTs t)
            ∧ q.get "year" = .int (yearOfDays (dateOfTs t))
            ∧ q.get "month" = .int (monthOfDays (dateOfTs t))
            ∧ q.get "day" = .int (dayOfDays (dateOfTs t))
            ∧ q.get "day_of_week" = .int (sparkDayOfWeek (dateOfTs t))
        | none => q.get "date" = .null ∧ q.get "year" = .null
            ∧ q.get "month" = .null ∧ q.get "day" = .null
            ∧ q.get "day_of_week" = .null))
    (htp : sparkMul (q.get "price") (q.get "quantity") = q.get "total_price")
    (hgift : hg = true → castIntSpark (q.get "is_gift") = q.get "is_gift")
    (hcpr : q.hasCol "price") (hcqt : q.hasCol "quantity")
    (hcrt : q.hasCol "rating") (hcd : q.hasCol "date") (hcy : q.hasCol "year")
    (hcm : q.hasCol "month") (hcdy : q.hasCol "day")
    (hcw : q.hasCol "day_of_week") (hctp : q.hasCol "total_price")
    (hcg : hg = true → q.hasCol "is_gift") :
    sparkCleanRow hg q = q := by
  simp only [sparkCleanRow]
  rw [Row.set_eq_self q "price" _ hcpr hpr.symm,
    Row.set_eq_self q "quantity" _ hcqt hqt.symm,
    Row.set_eq_self q "rating" _ hcrt hrt.symm]
  cases hparse : parseTimestamp (q.get "timestamp") with
  | some t =>
    simp only [hparse] at hcal
    obtain ⟨h1, h2, h3, h4, h5⟩ := hcal
    dsimp only
    rw [Row.set_eq_self q "date" _ hcd h1,
      Row.set_eq_self q "year" _ hcy h2,
      Row.set_eq_self q "month" _ hcm h3,
      Row.set_eq_self q "day" _ hcdy h4,
      Row.set_eq_self q "day_of_week" _ hcw h5,
      Row.set_eq_self q "total_price" _ hctp htp.symm,
      Row.set_eq_self q "rating" _ hcrt hrtf.symm]
    cases hg
    · simp
    · rw [if_pos rfl,
        Row.set_eq_self q "is_gift" _ (hcg rfl) (hgift rfl).symm]
  | none =>
    simp only [hparse] at hcal
    obtain ⟨h1, h2, h3, h4, h5⟩ := hcal
    dsimp only
    rw [Row.set_eq_self q "date" _ hcd h1,
      Row.set_eq_self q "year" _ hcy h2,
      Row.set_eq_self q "month" _ hcm h3,
      Row.set_eq_self q "day" _ hcdy h4,
      Row.set_eq_self q "day_of_week" _ hcw h5,
      Row.set_eq_self q "total_price" _ hctp htp.symm,
      Row.set_eq_self q "rating" _ hcrt hrtf.symm]
    cases hg
    · simp
    · rw [if_pos rfl,
        Row.set_eq_self q "is_gift" _ (hcg rfl) (hgift rfl).symm]

/-- The Spark per-row normalizer is idempotent outright (it is total). -/
theorem sparkCleanRow_fix (hg : Bool) (r : Row) :
    sparkCleanRow hg (sparkCleanRow hg r) = sparkCleanRow hg r := by
  refine sparkCleanRow_fix_of hg _ ?_ ?_ ?_ ?_ ?_ ?_ ?_ ?_ ?_ ?_ ?_ ?_ ?_ ?_
      ?_ ?_ ?_
  · rw [sparkCleanRow_get_price]
    exact castDoubleSpark_idem _
  · rw [sparkCleanRow_get_quantity]
    exact castIntSpark_idem _
  · rw [sparkCleanRow_get_rating]
    exact castDoubleSpark_fill _
  · rw [sparkCleanRow_get_rating]
    exact fillZero_idem _
  · rw [sparkCleanRow_get_timestamp]
    cases ht : parseTimestamp (r.get "timestamp") with
    | none =>
      simp [ht, sparkCleanRow_get_date, sparkCleanRow_get_year,
        sparkCleanRow_get_month, sparkCleanRow_get_day, sparkCleanRow_get_dow]
    | some t =>
      simp [ht, sparkCleanRow_get_date, sparkCleanRow_get_year,
        sparkCleanRow_get_month, sparkCleanRow_get_day, sparkCleanRow_get_dow]
  · rw [sparkCleanRow_get_price, sparkCleanRow_get_quantity,
      sparkCleanRow_get_total_price]
  · intro hgt
    subst hgt
    rw [sparkCleanRow_get_gift]
    exact castIntSpark_idem _
  · exact sparkCleanRow_hasCol _ _ _ (by simp)
  · exact sparkCleanRow_hasCol _ _ _ (by simp)
  · exact sparkCleanRow_hasCol _ _ _ (by simp)
  · exact sparkCleanRow_hasCol _ _ _ (by simp)
  · exact sparkCleanRow_hasCol _ _ _ (by simp)
  · exact sparkCleanRow_hasCol _ _ _ (by simp)
  · exact sparkCleanRow_hasCol _ _ _ (by simp)
  · exact sparkCleanRow_hasCol _ _ _ (by simp)
  · exact sparkCleanRow_hasCol _ _ _ (by simp)
  · intro hgt
    subst hgt
    exact sparkCleanRow_hasCol_gift _

/-- The distributed normalizer is idempotent on every dataframe. -/
theorem spark_clean_fix (df : DataFrame) :
    spark_clean (spark_clean df) = spark_clean df := by
  have hmem : ("is_gift" ∈ addCols df.cols derivedCols) ↔ ("is_gift" ∈ df.cols) := by
    rw [mem_addCols]
    simp [derivedCols]
  have hgift : decide ("is_gift" ∈ addCols df.cols derivedCols)
      = decide ("is_gift" ∈ df.cols) := decide_eq_decide.2 hmem
  simp only [spark_clean, hgift]
  congr 1
  · exact addCols_eq_self _ _ (fun c hc => (mem_addCols _ _ c).2 (Or.inr hc))
  · rw [List.map_map]
    refine List.map_congr_left ?_
    intro r _
    exact sparkCleanRow_fix _ r

/-- C3: both normalizers are idempotent.  Whenever the single-node
`clean_data` succeeds, running it again on its own output reproduces the
output exactly (values compared exactly — rationals model the floats
bit-for-bit); the distributed `clean_data` is idempotent on every
dataframe. -/
theorem c3_normalize_idempotent (df df' sdf : DataFrame)
    (h : clean_data df = some df') :
    clean_data df' = some df' ∧ spark_clean (spark_clean sdf) = spark_clean sdf :=
  ⟨clean_data_fix df df' h, spark_clean_fix sdf⟩

theorem c3_witness :
    clean_data
        ⟨["timestamp", "price", "quantity", "rating", "date", "year", "month",
          "day", "day_of_week", "total_price"],
         [[("timestamp", Scalar.datetime 86400), ("price", Scalar.int 5),
           ("quantity", Scalar.int 2), ("rating", Scalar.float 0),
           ("date", Scalar.date 1), ("year", Scalar.int 1970),
           ("month", Scalar.int 1), ("day", Scalar.int 2),
           ("day_of_week", Scalar.int 4), ("total_price", Scalar.int 10)]]⟩
      = some
        ⟨["timestamp", "price", "quantity", "rating", "date", "year", "month",
          "day", "day_of_week", "total_price"],
         [[("timestamp", Scalar.datetime 86400), ("price", Scalar.int 5),
           ("quantity", Scalar.int 2), ("rating", Scalar.float 0),
           ("date", Scalar.date 1), ("year", Scalar.int 1970),
           ("month", Scalar.int 1), ("day", Scalar.int 2),
           ("day_of_week", Scalar.int 4), ("total_price", Scalar.int 10)]]⟩ ∧
    spark_clean (spark_clean ⟨["timestamp"], [[("timestamp", Scalar.str "x")]]⟩)
      = spark_clean ⟨["timestamp"], [[("timestamp", Scalar.str "x")]]⟩ :=
  c3_normalize_idempotent
    ⟨["timestamp", "price", "quantity", "rating"],
     [[("timestamp", .datetime 86400), ("price", .int 5), ("quantity", .int 2),
       ("rating", .null)]]⟩
    ⟨["timestamp", "price", "quantity", "rating", "date", "year", "month",
      "day", "day_of_week", "total_price"],
     [[("timestamp", .datetime 86400), ("price", .int 5), ("quantity", .int 2),
       ("rating", .float 0), ("date", .date 1), ("year", .int 1970),
       ("month", .int 1), ("day", .int 2), ("day_of_week", .int 4),
       ("total_price", .int 10)]]⟩
    ⟨["timestamp"], [[("timestamp", .str "x")]]⟩
    (by decide)

theorem c5_witness :
    ("sales_by_category" ∈
        (aggregate_data ⟨["category", "payment_method", "is_gift"], []⟩).map Prod.fst ∧
     "sales_by_date" ∈
        (aggregate_data ⟨["category", "payment_method", "is_gift"], []⟩).map Prod.fst ∧
     "product_performance" ∈
        (aggregate_data ⟨["category", "payment_method", "is_gift"], []⟩).map Prod.fst) ∧
    ("payment_analysis" ∈
        (aggregate_data ⟨["category", "payment_method", "is_gift"], []⟩).map Prod.fst ↔
      "payment_method" ∈
        (⟨["category", "payment_method", "is_gift"], []⟩ : DataFrame).cols) ∧
    ("gift_analysis" ∈
        (aggregate_data ⟨["category", "payment_method", "is_gift"], []⟩).map Prod.fst ↔
      "is_gift" ∈ (⟨["category", "payment_method", "is_gift"], []⟩ : DataFrame).cols) ∧
    (∀ n ∈ (aggregate_data ⟨["category", "payment_method", "is_gift"], []⟩).map Prod.fst,
      n ∈ ["sales_by_category", "sales_by_date", "product_performance",
           "payment_analysis", "gift_analysis"]) ∧
    (spark_aggregate_data ⟨["category", "payment_method", "is_gift"], []⟩).map Prod.fst
      = (aggregate_data ⟨["category", "payment_method", "is_gift"], []⟩).map Prod.fst :=
  c5_view_names ⟨["category", "payment_method", "is_gift"], []⟩

end ETL
